import Mathlib

/-!
Verification development for the Fragile Words repository
(p5.js + Matter.js falling-sentence simulation).

Shallow embedding of the claim-relevant parts of the source:

* physics.js   (shipped concatenated with wordBody.js in the repo):
  the PHYS constant table, the entry registry (wordEntries), the
  collapse flag, evaluateCollapse / checkAndFlagCollapse /
  markCollapsedNoShatter / applyPoolDamping / stepPhysics /
  initPhysics / resetPhysics / addWordEntry / removeWordEntry and the
  collisionStart listener installed by initPhysics.
* sketch.js: scheduleSentenceSplit / processPendingSplits and the
  collapse-detection block of the draw loop (activateCollapse).
* wordBody.js: layoutLetters / makeWordEntry (the geometry factory).
* utils.js: computeCOM / stackHeight / clamp.

Modelling conventions:

* JavaScript numbers are modelled as exact rationals.  Constants such
  as 0.35 or 2.4 are written as the rationals they denote; no claim in
  scope depends on IEEE-754 rounding.
* Math.hypot(vx, vy) < c is rendered as vx^2 + vy^2 < c^2, which is
  equivalent over the reals for c ≥ 0.
* p5.textWidth is an external measurement; it is abstracted as a
  function tw : ℚ → Char → ℚ (text size, then character).  Matter.js
  derives the body mass from geometry and density; it is abstracted as
  bmass : List Char → ℚ → ℚ.  utils.rand() is the seeded mulberry32
  generator; it is abstracted as a stream rng : ℕ → ℚ with an index
  threaded through the state, since no claim in scope depends on the
  concrete pseudo-random values.
* Matter.Engine.update (the rigid-body integration) is an external
  black box; inside stepPhysics it is abstracted as a function applied
  to every tracked body, receiving the clamped time step.
* JS object identity is modelled by a numeric id field on entries; the
  registry list holds the single authoritative copy of each entry and
  the deferred split queue stores ids.
* JS truthiness on numbers (x || y) is modelled by comparison with 0,
  the only falsy numeric value that occurs here.
-/

namespace FragileWords

/-! ### PHYS constants (physics.js, export const PHYS) -/

def GRAVITY_Y : ℚ := 95/100
def FLOOR_THICKNESS : ℚ := 60
def SIDE_WALL_THICKNESS : ℚ := 80
def POOL_DAMP_Y : ℚ := 35/100
def POOL_REGION : ℚ := 120
def MAX_WORDS : ℕ := 25
def COLLAPSE_OFFSET_FRAC : ℚ := 25/100
def MIN_HEIGHT_FOR_OFFSET_CHECK : ℚ := 160
def VELOCITY_WAKE_THRESHOLD : ℚ := 24/10
def ANGULAR_WAKE_THRESHOLD : ℚ := 12/10
def WAKE_FRAMES_THRESHOLD : ℕ := 40
def COLLAPSE_GRAVITY_SCALE : ℚ := 7/10
def GROUND_COLLAPSE_COUNT : ℕ := 3
def GROUND_Y_MARGIN : ℚ := 60
def GROUND_STABLE_LIN_VEL : ℚ := 1/2
def GROUND_STABLE_ANG_VEL : ℚ := 4/10

/-- Fixed inter-token gap used by processPendingSplits (sketch.js). -/
def tokenGap : ℚ := 4

/-- WORD_PHYSICS_DEFAULTS.letterPaddingX (wordBody.js). -/
def letterPaddingX : ℚ := 4

/-! ### Data model -/

/-- Kinematic state of a Matter body (position, angle, velocity,
angular velocity, mass). -/
structure BodyState where
  x : ℚ
  y : ℚ
  angle : ℚ
  vx : ℚ
  vy : ℚ
  av : ℚ
  mass : ℚ
deriving DecidableEq, Repr

/-- The snapshot stored in entry._capturedState by
scheduleSentenceSplit (sketch.js). -/
structure Captured where
  x : ℚ
  y : ℚ
  angle : ℚ
  vx : ℚ
  vy : ℚ
  av : ℚ
deriving DecidableEq, Repr

/-- A registry entry (the objects held by wordEntries in physics.js,
as built by makeWordEntry in wordBody.js and decorated by sketch.js).
The id field is a model artifact standing for JS object identity.
parentLetterHeight = 0 encodes the JS undefined / falsy case. -/
structure Entry where
  id : ℕ
  word : List Char
  body : BodyState
  width : ℚ
  height : ℚ
  lettersCount : ℕ
  letterHeight : ℚ
  isSentenceParent : Bool
  midSplitDone : Bool
  splitScheduled : Bool
  isToken : Bool
  sentenceTokens : List (List Char)
  parentLetterHeight : ℚ
  capturedState : Captured
  delayFrames : ℕ
deriving DecidableEq, Repr

/-- The module-level mutable state of physics.js: the registry
(wordEntries), the collapse flag, the wake-frame counter, the canvas
dimensions and engine.gravity.y.  The model covers the states reached
after initPhysics, where the engine exists. -/
structure PhysState where
  wordEntries : List Entry
  collapsed : Bool
  wakeFrameCounter : ℕ
  canvasWidth : ℚ
  canvasHeight : ℚ
  gravityY : ℚ
deriving DecidableEq, Repr

/-- JS Math.max on the numbers that occur here (no NaN in scope);
written explicitly so that concrete states evaluate by kernel
reduction. -/
def mathMax (a b : ℚ) : ℚ := if a < b then b else a

/-- JS Math.min, as mathMax. -/
def mathMin (a b : ℚ) : ℚ := if b < a then b else a

/-! ### Registry primitives (association-by-id versions of the JS
object-reference operations) -/

/-- Find the entry with the given id (models holding a JS reference /
findWordEntryByBody). -/
def lookupEntry : List Entry → ℕ → Option Entry
  | [], _ => none
  | e :: rest, i => if e.id = i then some e else lookupEntry rest i

/-- Apply f to the entry with the given id (models mutating the shared
JS object through a reference). -/
def updateById : List Entry → ℕ → (Entry → Entry) → List Entry
  | [], _, _ => []
  | e :: rest, i, f => (if e.id = i then f e else e) :: updateById rest i f

/-- Remove the first entry with the given id
(wordEntries.indexOf + splice in removeWordEntry, physics.js). -/
def removeFirstById : List Entry → ℕ → List Entry
  | [], _ => []
  | e :: rest, i => if e.id = i then rest else e :: removeFirstById rest i

/-- addWordEntry (physics.js): push the entry onto the registry and
into the world (the entryRef back-references are subsumed by the id
model). -/
def addWordEntryP (s : PhysState) (e : Entry) : PhysState :=
  { s with wordEntries := s.wordEntries ++ [e] }

/-- removeWordEntry (physics.js). -/
def removeWordEntryP (s : PhysState) (i : ℕ) : PhysState :=
  { s with wordEntries := removeFirstById s.wordEntries i }

/-! ### utils.js helpers used by the detector -/

/-- utils.clamp: Math.max(a, Math.min(b, v)). -/
def clampQ (v a b : ℚ) : ℚ := mathMax a (mathMin b v)

/-- JS (b.mass || 1): 0 is the only falsy mass that occurs. -/
def massOr1 (m : ℚ) : ℚ := if m = 0 then 1 else m

/-- utils.computeCOM: mass-weighted centroid of the bodies. -/
def computeCOM (bodies : List BodyState) : ℚ × ℚ :=
  if bodies = [] then (0, 0)
  else
    let sumM := (bodies.map (fun b => massOr1 b.mass)).sum
    let sumX := (bodies.map (fun b => b.x * massOr1 b.mass)).sum
    let sumY := (bodies.map (fun b => b.y * massOr1 b.mass)).sum
    (sumX / sumM, sumY / sumM)

/-- utils.stackHeight: vertical span (max y − min y) of the bodies;
the JS ±Infinity fold seeds are modelled by sentinels beyond any
position that occurs. -/
def stackHeight (bodies : List BodyState) : ℚ :=
  if bodies = [] then 0
  else
    let ys := bodies.map (fun b => b.y)
    ys.foldl mathMax (-(1000000000 : ℚ)) - ys.foldl mathMin (1000000000 : ℚ)

/-! ### evaluateCollapse (physics.js) -/

/-- Grounded-stability test for one entry: near the floor and with
sub-threshold linear and angular speed
(Math.hypot comparison written in squared form). -/
def isGroundedStable (h : ℚ) (e : Entry) : Bool :=
  e.body.y > (h - FLOOR_THICKNESS) - GROUND_Y_MARGIN
  && (e.body.vx ^ 2 + e.body.vy ^ 2 < GROUND_STABLE_LIN_VEL ^ 2)
  && |e.body.av| < GROUND_STABLE_ANG_VEL

/-- Heuristic 1: at least GROUND_COLLAPSE_COUNT grounded stable
entries (the JS loop early-returns at the third hit, which is the same
as the final count reaching 3). -/
def groundedFires (s : PhysState) : Bool :=
  GROUND_COLLAPSE_COUNT ≤ (s.wordEntries.filter (isGroundedStable s.canvasHeight)).length

/-- Heuristic 2: any entry fallen past canvasHeight + 100. -/
def offscreenFires (s : PhysState) : Bool :=
  s.wordEntries.any (fun e => e.body.y > s.canvasHeight + 100)

/-- Heuristic 3: tall stack whose centre of mass is laterally offset. -/
def comFires (s : PhysState) : Bool :=
  let bodies := s.wordEntries.map (fun e => e.body)
  !bodies.isEmpty
  && stackHeight bodies > MIN_HEIGHT_FOR_OFFSET_CHECK
  && |(computeCOM bodies).1 - s.canvasWidth / 2| > s.canvasWidth * COLLAPSE_OFFSET_FRAC

/-- One entry counts as "awake" for heuristic 4. -/
def isWakeful (e : Entry) : Bool :=
  |e.body.vx| > VELOCITY_WAKE_THRESHOLD
  || |e.body.vy| > VELOCITY_WAKE_THRESHOLD
  || |e.body.av| > ANGULAR_WAKE_THRESHOLD

/-- Number of awake entries this tick. -/
def wakeCountOf (s : PhysState) : ℕ :=
  (s.wordEntries.filter isWakeful).length

/-- The wake count exceeds Math.max(3, entries × 0.5). -/
def wakeExcess (wakeCount entriesLen : ℕ) : Bool :=
  (wakeCount : ℚ) > mathMax 3 ((entriesLen : ℚ) * (1/2))

/-- Heuristic 4 update: on an excess tick increment the persistent
counter and fire when it exceeds WAKE_FRAMES_THRESHOLD; otherwise
decay the counter by 2 (ℕ subtraction floors at 0, like Math.max). -/
def wakeStep (wakeCount entriesLen counter : ℕ) : Bool × ℕ :=
  if wakeExcess wakeCount entriesLen then
    (decide (counter + 1 > WAKE_FRAMES_THRESHOLD), counter + 1)
  else
    (false, counter - 2)

/-- evaluateCollapse (physics.js): the five heuristics in source
order; heuristics 1-3 return before the wake counter is touched, and
the word-count cap is tested after the wake update is stored. -/
def evaluateCollapse (s : PhysState) : Bool × PhysState :=
  if s.collapsed then (true, s)
  else if groundedFires s then (true, s)
  else if offscreenFires s then (true, s)
  else if comFires s then (true, s)
  else
    let w := wakeStep (wakeCountOf s) s.wordEntries.length s.wakeFrameCounter
    let s1 := { s with wakeFrameCounter := w.2 }
    if w.1 then (true, s1)
    else if MAX_WORDS < s1.wordEntries.length then (true, s1)
    else (false, s1)

/-- checkAndFlagCollapse (physics.js): run the detector while the flag
is false; on a positive verdict set the flag and report true. -/
def checkAndFlagCollapse (s : PhysState) : Bool × PhysState :=
  if s.collapsed = false then
    let r := evaluateCollapse s
    if r.1 then (true, { r.2 with collapsed := true })
    else (false, r.2)
  else (false, s)

/-- markCollapsedNoShatter (physics.js): set the flag if unset; scale
gravity only when the flag was unset on entry. -/
def markCollapsedNoShatter (s : PhysState) : PhysState :=
  let preState := s.collapsed
  let s1 := if s.collapsed = false then { s with collapsed := true } else s
  if preState = false then { s1 with gravityY := GRAVITY_Y * COLLAPSE_GRAVITY_SCALE }
  else s1

/-! ### applyPoolDamping and stepPhysics (physics.js) -/

/-- Damping applied to one entry by applyPoolDamping when its body is
inside the pool region near the floor. -/
def dampOne (h : ℚ) (e : Entry) : Entry :=
  if e.body.y > h - POOL_REGION then
    { e with body := { e.body with
        vx := e.body.vx * (1 - POOL_DAMP_Y * (1/10)),
        vy := e.body.vy * (1 - POOL_DAMP_Y),
        av := e.body.av * (1 - POOL_DAMP_Y) } }
  else e

/-- applyPoolDamping (physics.js). -/
def applyPoolDamping (s : PhysState) : PhysState :=
  { s with wordEntries := s.wordEntries.map (dampOne s.canvasHeight) }

/-- Engine.update abstracted: the integrator may move every tracked
body arbitrarily, given the clamped time step; it does not touch the
registry structure, the flags, or the collapse state. -/
def integrateBodies (f : ℕ → BodyState → BodyState) (es : List Entry) : List Entry :=
  es.mapIdx (fun i e => { e with body := f i e.body })

/-- stepPhysics (physics.js): clamp dt to 50 ms (Math.min), integrate,
then apply pool damping only while not collapsed. -/
def stepPhysics (dt : ℚ) (f : ℚ → ℕ → BodyState → BodyState) (s : PhysState) : PhysState :=
  let clamped := mathMin dt 50
  let s1 := { s with wordEntries := integrateBodies (f clamped) s.wordEntries }
  if s1.collapsed = false then applyPoolDamping s1 else s1

/-! ### initPhysics / resetPhysics / handleResize (physics.js) -/

/-- initPhysics: fresh world, empty registry, collapse flag cleared,
base gravity.  The wake-frame counter is module state that initPhysics
does not reset. -/
def initPhysicsP (s : PhysState) (w h : ℚ) : PhysState :=
  { wordEntries := []
    collapsed := false
    wakeFrameCounter := s.wakeFrameCounter
    canvasWidth := w
    canvasHeight := h
    gravityY := GRAVITY_Y }

/-- resetPhysics: initPhysics followed by zeroing the wake counter. -/
def resetPhysicsP (s : PhysState) (w h : ℚ) : PhysState :=
  { initPhysicsP s w h with wakeFrameCounter := 0 }

/-- handleResize (physics.js): new dimensions, walls rebuilt (not
otherwise modelled), far-out-of-range bodies clamped back. -/
def handleResizeP (s : PhysState) (w h : ℚ) : PhysState :=
  { s with
    canvasWidth := w
    canvasHeight := h
    wordEntries := s.wordEntries.map (fun e =>
      if e.body.x < -200 ∨ e.body.x > w + 200 then
        { e with body := { e.body with x := clampQ e.body.x 50 (w - 50) } }
      else e) }

/-! ### sketch.js state: deferred split queue and id / rng counters -/

/-- Sketch-level mutable state: the physics module state, the
pendingSplits queue (ids standing for the JS entry references), the
fresh-id counter for newly constructed entries, and the index into the
abstract random stream. -/
structure AppState where
  phys : PhysState
  pendingSplits : List ℕ
  nextId : ℕ
  rngIdx : ℕ
deriving DecidableEq, Repr

section Factory

variable (tw : ℚ → Char → ℚ) (bmass : List Char → ℚ → ℚ) (rng : ℕ → ℚ)

/-! ### wordBody.js geometry factory -/

/-- layoutLetters (wordBody.js): each character occupies
max(8, textWidth(ch)) + letterPaddingX; the total width is the final
cursor, i.e. the sum. -/
def layoutWidth (twf : Char → ℚ) (word : List Char) : ℚ :=
  (word.map (fun ch => mathMax 8 (twf ch) + letterPaddingX)).sum

/-- makeWordEntry (wordBody.js): measure at textSize
letterHeight × 0.78, centre the rects, build the body at (x, y) with
the small random initial tilt (one rand() consumption); mass comes
from the Matter geometry/density (abstracted).  Returns the entry and
the advanced rng index. -/
def makeWordEntry (i : ℕ) (word : List Char) (x y lh : ℚ) (ri : ℕ) : Entry × ℕ :=
  let w := layoutWidth (tw (lh * (78/100))) word
  ({ id := i
     word := word
     body := { x := x, y := y, angle := (rng ri - 1/2) * (5/100),
               vx := 0, vy := 0, av := 0, mass := bmass word lh }
     width := w
     height := lh
     lettersCount := word.length
     letterHeight := lh
     isSentenceParent := false
     midSplitDone := false
     splitScheduled := false
     isToken := false
     sentenceTokens := []
     parentLetterHeight := 0
     capturedState := { x := 0, y := 0, angle := 0, vx := 0, vy := 0, av := 0 }
     delayFrames := 0 }, ri + 1)

/-! ### scheduleSentenceSplit and the collisionStart listener -/

end Factory

/-- The capture taken from the live body at scheduling time. -/
def capOf (b : BodyState) : Captured :=
  { x := b.x, y := b.y, angle := b.angle, vx := b.vx, vy := b.vy, av := b.av }

/-- The per-entry mutation performed by scheduleSentenceSplit. -/
def schedUpdate (cap : Captured) (e0 : Entry) : Entry :=
  { e0 with splitScheduled := true, capturedState := cap, delayFrames := 1 }

/-- scheduleSentenceSplit (sketch.js): guard on midSplitDone and
splitScheduled, capture the live body pose and kinematics, set a
one-frame delay and enqueue.  (The JS !entry guard corresponds to the
none case; the callback only ever passes live entries.) -/
def scheduleSentenceSplit (st : AppState) (i : ℕ) : AppState :=
  match lookupEntry st.phys.wordEntries i with
  | none => st
  | some e =>
    if e.midSplitDone || e.splitScheduled then st
    else
      let l := updateById st.phys.wordEntries i (schedUpdate (capOf e.body))
      { st with
        phys := { st.phys with wordEntries := l }
        pendingSplits := st.pendingSplits ++ [i] }

/-- One side of a Matter collision pair: the static floor, a static
side wall, or a body (possibly a compound part) whose
entryRef / parent.entryRef resolution reaches the tracked entry with
the given id. -/
inductive BodyRef where
  | floorB : BodyRef
  | wallLeft : BodyRef
  | wallRight : BodyRef
  | entryBody : ℕ → BodyRef
deriving DecidableEq, Repr

/-- Resolution of a collision participant to a tracked entry
(entryRef, parent.entryRef and the findWordEntryByBody fallback all
reach the registry entry; static boundaries resolve to nothing). -/
def resolveEntryId (l : List Entry) (b : BodyRef) : Option ℕ :=
  match b with
  | .entryBody i => match lookupEntry l i with
      | some _ => some i
      | none => none
  | _ => none

/-- One direction (a, b) of the collisionStart pair loop
(initPhysics, physics.js): if a resolves to a sentence parent that has
not split yet, and b is the floor or resolves to a different tracked
entry (never a side wall), invoke the impact callback, which is
scheduleSentenceSplit. -/
def collisionDir (st : AppState) (a b : BodyRef) : AppState :=
  match resolveEntryId st.phys.wordEntries a with
  | none => st
  | some idA =>
    match lookupEntry st.phys.wordEntries idA with
    | none => st
    | some eA =>
      if eA.isSentenceParent && !eA.midSplitDone then
        let otherId := resolveEntryId st.phys.wordEntries b
        let isOtherWord : Bool :=
          match otherId with
          | some idB => decide (idB ≠ idA)
          | none => false
        let hitFloor : Bool := b == BodyRef.floorB
        if hitFloor || isOtherWord then scheduleSentenceSplit st idA else st
      else st

/-- The collisionStart listener processes both orientations of each
pair (the i = 0, 1 loop). -/
def collisionPair (st : AppState) (a b : BodyRef) : AppState :=
  collisionDir (collisionDir st a b) b a

/-- Full collisionStart event: fold over evt.pairs. -/
def handleCollisionStart (st : AppState) (pairs : List (BodyRef × BodyRef)) : AppState :=
  pairs.foldl (fun s p => collisionPair s p.1 p.2) st

/-! ### processPendingSplits (sketch.js) -/

section Splits

variable (tw : ℚ → Char → ℚ) (bmass : List Char → ℚ → ℚ) (rng : ℕ → ℚ)

/-- First pass of the split (sketch.js): build a token entry per child
text at the captured parent position (scratch position used only for
measuring), tag it isToken, and accumulate the total width with one
tokenGap between consecutive tokens (gap added when ti < length − 1).
Returns (created, totalWidth, next fresh id, next rng index). -/
def measureTokens (ps : Captured) (lh : ℚ) :
    List (List Char) → ℕ → ℕ → List Entry × ℚ × ℕ × ℕ
  | [], nid, ri => ([], 0, nid, ri)
  | [t], nid, ri =>
      let m := makeWordEntry tw bmass rng nid t ps.x ps.y lh ri
      ([{ m.1 with isToken := true }], m.1.width, nid + 1, m.2)
  | t :: t2 :: rest, nid, ri =>
      let m := makeWordEntry tw bmass rng nid t ps.x ps.y lh ri
      let r := measureTokens ps lh (t2 :: rest) (nid + 1) m.2
      ({ m.1 with isToken := true } :: r.1, m.1.width + tokenGap + r.2.1, r.2.2)

/-- The re-posing of one created token in the second pass of the
split (sketch.js): the token is placed at the captured x plus its
centre offset, the captured y plus a ±1px random jitter, with the
captured angle and the captured linear and angular velocity. -/
def placeOne (ps : Captured) (te : Entry) (cursor : ℚ) (ri : ℕ) : Entry :=
  let centerX := cursor + te.width / 2
  let yJitter := (rng ri - 1/2) * 2
  { te with body := { te.body with
      x := ps.x + centerX, y := ps.y + yJitter, angle := ps.angle,
      vx := ps.vx, vy := ps.vy, av := ps.av } }

/-- Second pass of the split (sketch.js): walk the created tokens with
a cursor starting at −totalWidth/2, re-pose each and push it into the
registry via addWordEntry, advancing the cursor by width + gap. -/
def placeTokens (ps : Captured) :
    List Entry → ℚ → PhysState → ℕ → PhysState × ℕ
  | [], _, ph, ri => (ph, ri)
  | te :: rest, cursor, ph, ri =>
      placeTokens ps rest (cursor + te.width + tokenGap)
        (addWordEntryP ph (placeOne rng ps te cursor ri)) (ri + 1)

/-- The _delayFrames decrement of processPendingSplits. -/
def decDelay (e0 : Entry) : Entry := { e0 with delayFrames := e0.delayFrames - 1 }

/-- The midSplitDone mutation of processPendingSplits. -/
def markMidDone (e0 : Entry) : Entry := { e0 with midSplitDone := true }

/-- JS (entry.parentLetterHeight || entry.letterHeight || 34):
numeric truthiness, 0 standing for the falsy cases. -/
def parentLH (e : Entry) : ℚ :=
  if e.parentLetterHeight ≠ 0 then e.parentLetterHeight
  else if e.letterHeight ≠ 0 then e.letterHeight
  else 34

/-- The body of the nonempty-token execute branch of
processPendingSplits, entered with midSplitDone already set on the
registry copy of the parent: remove the parent, measure, lay out
symmetrically.  e is the parent value as read through the JS
reference. -/
def executeSplit (st : AppState) (i : ℕ) (e : Entry) : AppState :=
  let ps := e.capturedState
  let lh := parentLH e
  let ph1 := removeWordEntryP st.phys i
  let m := measureTokens tw bmass rng ps lh e.sentenceTokens st.nextId st.rngIdx
  let pl := placeTokens rng ps m.1 (-(m.2.1 / 2)) ph1 m.2.2.2
  { st with phys := pl.1, nextId := m.2.2.1, rngIdx := pl.2 }

/-- Processing of one pendingSplits item (one iteration of the
backwards loop in processPendingSplits): already-split entries are
dropped from the queue; a positive delay is decremented and the item
kept; otherwise the split executes: mark midSplitDone, drop the queue
item, and — only when there are recorded tokens — remove the parent
and spawn the children.  The returned Bool is whether the item stays
in the queue. -/
def processItem (st : AppState) (i : ℕ) : Bool × AppState :=
  match lookupEntry st.phys.wordEntries i with
  | none => (false, st)
  | some e =>
    if e.midSplitDone then (false, st)
    else if 0 < e.delayFrames then
      let ld := updateById st.phys.wordEntries i decDelay
      (true, { st with phys := { st.phys with wordEntries := ld } })
    else
      let lm := updateById st.phys.wordEntries i markMidDone
      let stm := { st with phys := { st.phys with wordEntries := lm } }
      if e.sentenceTokens.isEmpty then (false, stm)
      else (false, executeSplit tw bmass rng stm i e)

/-- The backwards iteration of processPendingSplits: items at higher
indices are processed first, splices never disturb lower indices, and
surviving items keep their order. -/
def processQueue : List ℕ → AppState → List ℕ × AppState
  | [], st => ([], st)
  | i :: rest, st =>
      let r := processQueue rest st
      let p := processItem tw bmass rng r.2 i
      (if p.1 then i :: r.1 else r.1, p.2)

/-- processPendingSplits (sketch.js). -/
def processPendingSplits (st : AppState) : AppState :=
  let r := processQueue tw bmass rng st.pendingSplits st
  { r.2 with pendingSplits := r.1 }

end Splits

/-! ### The collapse-detection block of the draw loop (sketch.js) -/

/-- Lines 304-309 of sketch.js together with activateCollapse: while
not collapsed, run checkAndFlagCollapse; when it just flagged, run
activateCollapse, which calls markCollapsedNoShatter unless the
collapseActivated latch was already set.  Returns the new physics
state and the new latch. -/
def sketchCollapsePhase (s : PhysState) (collapseActivated : Bool) : PhysState × Bool :=
  if s.collapsed = false then
    let r := checkAndFlagCollapse s
    if r.1 then
      if collapseActivated then (r.2, collapseActivated)
      else (markCollapsedNoShatter r.2, true)
    else (r.2, collapseActivated)
  else (s, collapseActivated)

/-! ### Per-tick operation traces over the physics module state.
These are the operations the surrounding program (sketch.js and the
collision listener) ever applies to the physics module between two
full resets. -/

/-- An operation on the physics-module state.  step carries the
abstract integrator; sched is the physics-side effect of
scheduleSentenceSplit on a registry entry (capturing the pose and
setting the one-way flags); resetOp is resetPhysics and initOp is a
bare initPhysics. -/
inductive POp where
  | checkOp : POp
  | markOp : POp
  | stepOp : ℚ → (ℚ → ℕ → BodyState → BodyState) → POp
  | addOp : Entry → POp
  | removeOp : ℕ → POp
  | removeAllOp : POp
  | schedOp : ℕ → Captured → POp
  | resizeOp : ℚ → ℚ → POp
  | resetOp : ℚ → ℚ → POp
  | initOp : ℚ → ℚ → POp

/-- The full-reset operations (resetPhysics / initPhysics). -/
def POp.isReset : POp → Bool
  | .resetOp _ _ => true
  | .initOp _ _ => true
  | _ => false

/-- Interpretation of one operation on the physics state. -/
def applyPOp (s : PhysState) : POp → PhysState
  | .checkOp => (checkAndFlagCollapse s).2
  | .markOp => markCollapsedNoShatter s
  | .stepOp dt f => stepPhysics dt f s
  | .addOp e => addWordEntryP s e
  | .removeOp i => removeWordEntryP s i
  | .removeAllOp => { s with wordEntries := [] }
  | .schedOp i cap =>
      { s with wordEntries := updateById s.wordEntries i (schedUpdate cap) }
  | .resizeOp w h => handleResizeP s w h
  | .resetOp w h => resetPhysicsP s w h
  | .initOp w h => initPhysicsP s w h

/-- Run a list of operations left to right. -/
def runPOps (s : PhysState) : List POp → PhysState
  | [] => s
  | op :: rest => runPOps (applyPOp s op) rest

/-- Number of checkAndFlagCollapse calls in the trace that return
true. -/
def countTrueChecks (s : PhysState) : List POp → ℕ
  | [] => 0
  | op :: rest =>
      (match op with
       | POp.checkOp => if (checkAndFlagCollapse s).1 then 1 else 0
       | _ => 0) + countTrueChecks (applyPOp s op) rest

/-! ### Basic facts about the detector functions -/

lemma evaluateCollapse_collapsed (s : PhysState) :
    ((evaluateCollapse s).2).collapsed = s.collapsed := by
  simp only [evaluateCollapse]
  split_ifs <;> rfl

lemma evaluateCollapse_gravityY (s : PhysState) :
    ((evaluateCollapse s).2).gravityY = s.gravityY := by
  simp only [evaluateCollapse]
  split_ifs <;> rfl

lemma evaluateCollapse_wordEntries (s : PhysState) :
    ((evaluateCollapse s).2).wordEntries = s.wordEntries := by
  simp only [evaluateCollapse]
  split_ifs <;> rfl

lemma checkAndFlagCollapse_of_collapsed (s : PhysState) (hc : s.collapsed = true) :
    checkAndFlagCollapse s = (false, s) := by
  simp [checkAndFlagCollapse, hc]

lemma checkAndFlagCollapse_post_of_true (s : PhysState)
    (h : (checkAndFlagCollapse s).1 = true) :
    ((checkAndFlagCollapse s).2).collapsed = true := by
  by_cases hc : s.collapsed = true
  · rw [checkAndFlagCollapse_of_collapsed s hc] at h
    exact absurd h (by simp)
  · have hc2 : s.collapsed = false := by simpa using hc
    by_cases hf : (evaluateCollapse s).1 = true
    · simp [checkAndFlagCollapse, hc2, hf]
    · have hf2 : (evaluateCollapse s).1 = false := by simpa using hf
      simp [checkAndFlagCollapse, hc2, hf2] at h

lemma checkAndFlagCollapse_post_of_false (s : PhysState)
    (h : (checkAndFlagCollapse s).1 = false) :
    ((checkAndFlagCollapse s).2).collapsed = s.collapsed := by
  by_cases hc : s.collapsed = true
  · rw [checkAndFlagCollapse_of_collapsed s hc]
  · have hc2 : s.collapsed = false := by simpa using hc
    by_cases hf : (evaluateCollapse s).1 = true
    · simp [checkAndFlagCollapse, hc2, hf] at h
    · have hf2 : (evaluateCollapse s).1 = false := by simpa using hf
      simp [checkAndFlagCollapse, hc2, hf2, evaluateCollapse_collapsed]

lemma checkAndFlagCollapse_gravityY (s : PhysState) :
    ((checkAndFlagCollapse s).2).gravityY = s.gravityY := by
  by_cases hc : s.collapsed = true
  · rw [checkAndFlagCollapse_of_collapsed s hc]
  · have hc2 : s.collapsed = false := by simpa using hc
    by_cases hf : (evaluateCollapse s).1 = true
    · simp [checkAndFlagCollapse, hc2, hf, evaluateCollapse_gravityY]
    · have hf2 : (evaluateCollapse s).1 = false := by simpa using hf
      simp [checkAndFlagCollapse, hc2, hf2, evaluateCollapse_gravityY]

lemma markCollapsedNoShatter_of_collapsed (s : PhysState) (hc : s.collapsed = true) :
    markCollapsedNoShatter s = s := by
  simp [markCollapsedNoShatter, hc]

lemma markCollapsedNoShatter_wordEntries (s : PhysState) :
    (markCollapsedNoShatter s).wordEntries = s.wordEntries := by
  simp only [markCollapsedNoShatter]
  split_ifs <;> rfl

/-- No non-reset operation ever clears the collapse flag. -/
lemma applyPOp_collapsed (s : PhysState) (op : POp) (hop : op.isReset = false)
    (hc : s.collapsed = true) : (applyPOp s op).collapsed = true := by
  cases op <;>
    simp_all [applyPOp, POp.isReset, checkAndFlagCollapse, markCollapsedNoShatter,
      stepPhysics, applyPoolDamping, addWordEntryP, removeWordEntryP, handleResizeP]

lemma runPOps_collapsed (ops : List POp) :
    ∀ s : PhysState, (∀ op ∈ ops, op.isReset = false) → s.collapsed = true →
      (runPOps s ops).collapsed = true := by
  induction ops with
  | nil => intro s _ hc; exact hc
  | cons op rest ih =>
    intro s h hc
    have hop := h op (List.mem_cons_self op rest)
    have hrest : ∀ o ∈ rest, o.isReset = false := fun o ho => h o (List.mem_cons_of_mem _ ho)
    exact ih _ hrest (applyPOp_collapsed s op hop hc)

/-- Once collapsed, a reset-free trace produces no positive
checkAndFlagCollapse verdicts. -/
lemma countTrueChecks_zero (ops : List POp) :
    ∀ s : PhysState, (∀ op ∈ ops, op.isReset = false) → s.collapsed = true →
      countTrueChecks s ops = 0 := by
  induction ops with
  | nil => intro s _ _; rfl
  | cons op rest ih =>
    intro s h hc
    have hop := h op (List.mem_cons_self op rest)
    have hrest : ∀ o ∈ rest, o.isReset = false := fun o ho => h o (List.mem_cons_of_mem _ ho)
    have hpost : (applyPOp s op).collapsed = true := applyPOp_collapsed s op hop hc
    have h0 := ih _ hrest hpost
    cases op <;> simp_all [countTrueChecks, applyPOp, checkAndFlagCollapse_of_collapsed s hc]

/-- A reset-free trace contains at most one positive
checkAndFlagCollapse verdict. -/
lemma countTrueChecks_le_one (ops : List POp) :
    ∀ s : PhysState, (∀ op ∈ ops, op.isReset = false) →
      countTrueChecks s ops ≤ 1 := by
  induction ops with
  | nil => intro s _; simp [countTrueChecks]
  | cons op rest ih =>
    intro s h
    have hop := h op (List.mem_cons_self op rest)
    have hrest : ∀ o ∈ rest, o.isReset = false := fun o ho => h o (List.mem_cons_of_mem _ ho)
    by_cases hc : s.collapsed = true
    · rw [countTrueChecks_zero (op :: rest) s h hc]
      omega
    · cases op
      · by_cases hf : (checkAndFlagCollapse s).1 = true
        · have hpost := checkAndFlagCollapse_post_of_true s hf
          have h0 := countTrueChecks_zero rest _ hrest (by simpa [applyPOp] using hpost)
          simp [countTrueChecks, applyPOp, hf]
          simpa [applyPOp] using h0
        · have hf2 : (checkAndFlagCollapse s).1 = false := by simpa using hf
          simp [countTrueChecks, hf2]
          exact ih _ hrest
      all_goals {
        simp only [countTrueChecks, Nat.zero_add]
        exact ih _ hrest
      }

/-! ### Concrete states used to witness the theorems -/

/-- A resting mid-air body at the canvas centre. -/
def restBody : BodyState :=
  { x := 400, y := 100, angle := 0, vx := 0, vy := 0, av := 0, mass := 1 }

/-- A plain resting entry with the given id. -/
def restEntry (i : ℕ) : Entry :=
  { id := i
    word := []
    body := restBody
    width := 20
    height := 34
    lettersCount := 0
    letterHeight := 34
    isSentenceParent := false
    midSplitDone := false
    splitScheduled := false
    isToken := false
    sentenceTokens := []
    parentLetterHeight := 0
    capturedState := { x := 0, y := 0, angle := 0, vx := 0, vy := 0, av := 0 }
    delayFrames := 0 }

/-- 26 perfectly resting entries on an 800x600 canvas, not collapsed:
one more entry than MAX_WORDS, with every motion-based heuristic
quiescent. -/
def bigRestState : PhysState :=
  { wordEntries := (List.range 26).map restEntry
    collapsed := false
    wakeFrameCounter := 0
    canvasWidth := 800
    canvasHeight := 600
    gravityY := GRAVITY_Y }

/-- A fast-moving mid-air entry. -/
def wakeEntry : Entry :=
  { restEntry 0 with body := { restBody with vx := 10 } }

/-- Four fast-moving mid-air entries, wake counter 0: the wakefulness
count (4) exceeds max(3, 0.5 x 4) = 3 on this tick, while every other
heuristic is quiet. -/
def wakeDemoState : PhysState :=
  { wordEntries := [wakeEntry, wakeEntry, wakeEntry, wakeEntry]
    collapsed := false
    wakeFrameCounter := 0
    canvasWidth := 800
    canvasHeight := 600
    gravityY := GRAVITY_Y }

/-! ### C5 -/

/-- C5: across every sequence of per-tick operations
(checkAndFlagCollapse, markCollapsedNoShatter, stepPhysics, registry
mutations, resize, collision-side scheduling), the collapse flag never
transitions from true to false; only resetPhysics / initPhysics
returns it to false. -/
theorem c5_monotonic_collapse :
    (∀ (s : PhysState) (op : POp), op.isReset = false → s.collapsed = true →
        (applyPOp s op).collapsed = true)
    ∧ (∀ (s : PhysState) (ops : List POp), (∀ op ∈ ops, op.isReset = false) →
        s.collapsed = true → (runPOps s ops).collapsed = true)
    ∧ (∀ (s : PhysState) (w h : ℚ),
        (resetPhysicsP s w h).collapsed = false ∧ (initPhysicsP s w h).collapsed = false) := by
  refine ⟨applyPOp_collapsed, ?_, ?_⟩
  · intro s ops hops hc
    exact runPOps_collapsed ops s hops hc
  · intro s w h
    exact ⟨rfl, rfl⟩

/-- C5 witness: a concrete collapsed state stays collapsed across a
concrete reset-free trace, and a reset clears the flag. -/
theorem c5_witness :
    (runPOps { bigRestState with collapsed := true }
        [POp.markOp, POp.checkOp, POp.removeAllOp]).collapsed = true
    ∧ (resetPhysicsP { bigRestState with collapsed := true } 800 600).collapsed = false :=
  ⟨c5_monotonic_collapse.2.1 { bigRestState with collapsed := true }
      [POp.markOp, POp.checkOp, POp.removeAllOp] (by decide) rfl,
    (c5_monotonic_collapse.2.2 { bigRestState with collapsed := true } 800 600).1⟩

/-! ### C6 -/

/-- C6: starting from a wake-frame counter of 0, a single excess tick
does not fire the wakefulness heuristic; the heuristic fires only when
the counter — incremented by 1 on each excess tick, decremented by 2
(floored at 0) otherwise — exceeds the fixed threshold of 40.  On the
concrete wakeDemoState (wake count 4 > max(3, 2), counter 0) the whole
detector stays quiet and merely advances the counter to 1. -/
theorem c6_hysteresis :
    (∀ wc n : ℕ, (wakeStep wc n 0).1 = false)
    ∧ (∀ wc n c : ℕ, (wakeStep wc n c).1 = true →
        (wakeStep wc n c).2 = c + 1 ∧ WAKE_FRAMES_THRESHOLD < c + 1)
    ∧ (∀ wc n c : ℕ, wakeExcess wc n = true → (wakeStep wc n c).2 = c + 1)
    ∧ (∀ wc n c : ℕ, wakeExcess wc n = false → (wakeStep wc n c).2 = c - 2)
    ∧ ((evaluateCollapse wakeDemoState).1 = false
        ∧ ((evaluateCollapse wakeDemoState).2).wakeFrameCounter = 1) := by
  have hdemo : evaluateCollapse wakeDemoState
      = (false, { wakeDemoState with wakeFrameCounter := 1 }) := by
    norm_num [evaluateCollapse, wakeDemoState, wakeEntry, restEntry, restBody,
      groundedFires, isGroundedStable, offscreenFires, comFires, stackHeight,
      computeCOM, massOr1, wakeCountOf, isWakeful, wakeStep, wakeExcess, mathMax, mathMin,
      GROUND_COLLAPSE_COUNT, FLOOR_THICKNESS, GROUND_Y_MARGIN, GROUND_STABLE_LIN_VEL,
      GROUND_STABLE_ANG_VEL, VELOCITY_WAKE_THRESHOLD, ANGULAR_WAKE_THRESHOLD,
      WAKE_FRAMES_THRESHOLD, MAX_WORDS, MIN_HEIGHT_FOR_OFFSET_CHECK, COLLAPSE_OFFSET_FRAC,
      List.filter, List.foldl]
  refine ⟨?_, ?_, ?_, ?_, by rw [hdemo]; exact ⟨rfl, rfl⟩⟩
  · intro wc n
    by_cases hx : wakeExcess wc n = true
    · simp [wakeStep, hx, WAKE_FRAMES_THRESHOLD]
    · simp [wakeStep, hx]
  · intro wc n c hfire
    by_cases hx : wakeExcess wc n = true
    · refine ⟨by simp [wakeStep, hx], ?_⟩
      have : decide (WAKE_FRAMES_THRESHOLD < c + 1) = true := by
        simpa [wakeStep, hx] using hfire
      exact of_decide_eq_true this
    · simp [wakeStep, hx] at hfire
  · intro wc n c hx
    simp [wakeStep, hx]
  · intro wc n c hx
    simp [wakeStep, hx]

/-- C6 witness: at counter 40 an excess tick fires, and the theorem
pins the updated counter at 41 > 40. -/
theorem c6_witness :
    (wakeStep 5 0 40).2 = 40 + 1 ∧ WAKE_FRAMES_THRESHOLD < 40 + 1 :=
  c6_hysteresis.2.1 5 0 40
    (by norm_num [wakeStep, wakeExcess, mathMax, WAKE_FRAMES_THRESHOLD])

/-! ### C7 -/

/-- C7: whenever the live-entry count exceeds MAX_WORDS = 25 and the
flag is still false, checkAndFlagCollapse returns true and sets the
collapse flag on that very tick, whatever the entry positions and
velocities are. -/
theorem c7_hard_cap (s : PhysState) (hc : s.collapsed = false)
    (hn : MAX_WORDS < s.wordEntries.length) :
    (checkAndFlagCollapse s).1 = true ∧ ((checkAndFlagCollapse s).2).collapsed = true := by
  have he : (evaluateCollapse s).1 = true := by
    simp only [evaluateCollapse, hc]
    split_ifs <;> simp_all
  constructor
  · simp [checkAndFlagCollapse, hc, he]
  · simp [checkAndFlagCollapse, hc, he]

/-- C7 witness: 26 entries all perfectly at rest trip the hard cap. -/
theorem c7_witness :
    (checkAndFlagCollapse bigRestState).1 = true
    ∧ ((checkAndFlagCollapse bigRestState).2).collapsed = true :=
  c7_hard_cap bigRestState (by decide) (by decide)

/-! ### C10 -/

/-- C10: between two full resets checkAndFlagCollapse returns true at
most once: it returns true exactly on the call that transitions the
flag from false to true, a reset-free trace carries at most one
positive verdict, and a trace starting collapsed carries none. -/
theorem c10_check_once :
    (∀ s : PhysState, (checkAndFlagCollapse s).1 = true ↔
        (s.collapsed = false ∧ ((checkAndFlagCollapse s).2).collapsed = true))
    ∧ (∀ (ops : List POp) (s : PhysState), (∀ op ∈ ops, op.isReset = false) →
        countTrueChecks s ops ≤ 1)
    ∧ (∀ (ops : List POp) (s : PhysState), (∀ op ∈ ops, op.isReset = false) →
        s.collapsed = true → countTrueChecks s ops = 0) := by
  refine ⟨?_, ?_, ?_⟩
  · intro s
    constructor
    · intro hf
      refine ⟨?_, checkAndFlagCollapse_post_of_true s hf⟩
      by_cases hc : s.collapsed = true
      · rw [checkAndFlagCollapse_of_collapsed s hc] at hf
        exact absurd hf (by simp)
      · simpa using hc
    · rintro ⟨hc, hpost⟩
      by_cases hf : (checkAndFlagCollapse s).1 = true
      · exact hf
      · have hf2 : (checkAndFlagCollapse s).1 = false := by simpa using hf
        have := checkAndFlagCollapse_post_of_false s hf2
        rw [hpost, hc] at this
        exact absurd this (by simp)
  · intro ops s hops
    exact countTrueChecks_le_one ops s hops
  · intro ops s hops hc
    exact countTrueChecks_zero ops s hops hc

/-- C10 witness: on a concrete trace of two successive
checkAndFlagCollapse calls from the uncollapsed 26-entry state, at
most one call reports true. -/
theorem c10_witness :
    countTrueChecks bigRestState [POp.checkOp, POp.checkOp] ≤ 1 :=
  c10_check_once.2.1 [POp.checkOp, POp.checkOp] bigRestState (by decide)

/-! ### C8 -/

/-- A single entry fallen past the bottom of an 800x600 canvas
(y = 800 > canvasHeight + 100), otherwise at rest, flag still
false: the off-bounds heuristic fires on the next detector run. -/
def fallenState : PhysState :=
  { wordEntries := [{ restEntry 0 with body := { restBody with y := 800 } }]
    collapsed := false
    wakeFrameCounter := 0
    canvasWidth := 800
    canvasHeight := 600
    gravityY := GRAVITY_Y }

/-- C8 (code bug): in the program, the first transition of the
collapse flag to true happens inside checkAndFlagCollapse, before
activateCollapse calls markCollapsedNoShatter, so the latter always
sees preState = true and the gravity scaling is dead: the draw-loop
collapse phase never changes gravity, even on the transition tick — in
particular at the concrete fallenState the flag flips but gravity
stays GRAVITY_Y ≠ GRAVITY_Y × 0.7.  (In isolation
markCollapsedNoShatter does behave as the claim says: called with the
flag false, it scales gravity once, is idempotent afterwards, and
never touches the registry.) -/
theorem c8_gravity_never_softened :
    (∀ (s : PhysState) (ca : Bool), ((sketchCollapsePhase s ca).1).gravityY = s.gravityY)
    ∧ (∀ s : PhysState,
        (markCollapsedNoShatter { s with collapsed := false }).gravityY
          = GRAVITY_Y * COLLAPSE_GRAVITY_SCALE
        ∧ (markCollapsedNoShatter { s with collapsed := false }).collapsed = true
        ∧ markCollapsedNoShatter { s with collapsed := true } = { s with collapsed := true }
        ∧ (markCollapsedNoShatter s).wordEntries = s.wordEntries)
    ∧ ((sketchCollapsePhase fallenState false).1.collapsed = true
        ∧ (sketchCollapsePhase fallenState false).1.gravityY = GRAVITY_Y
        ∧ GRAVITY_Y ≠ GRAVITY_Y * COLLAPSE_GRAVITY_SCALE) := by
  refine ⟨?_, ?_, ?_⟩
  · intro s ca
    by_cases hc : s.collapsed = true
    · simp [sketchCollapsePhase, hc]
    · have hc2 : s.collapsed = false := by simpa using hc
      by_cases hf : (checkAndFlagCollapse s).1 = true
      · have hpost := checkAndFlagCollapse_post_of_true s hf
        by_cases hca : ca = true
        · simp [sketchCollapsePhase, hc2, hf, hca, checkAndFlagCollapse_gravityY]
        · have hca2 : ca = false := by simpa using hca
          simp [sketchCollapsePhase, hc2, hf, hca2,
            markCollapsedNoShatter_of_collapsed _ hpost, checkAndFlagCollapse_gravityY]
      · have hf2 : (checkAndFlagCollapse s).1 = false := by simpa using hf
        simp [sketchCollapsePhase, hc2, hf2, checkAndFlagCollapse_gravityY]
  · intro s
    exact ⟨rfl, rfl, rfl, markCollapsedNoShatter_wordEntries s⟩
  · have hcheck : checkAndFlagCollapse fallenState
        = (true, { fallenState with collapsed := true }) := by
      norm_num [checkAndFlagCollapse, evaluateCollapse, fallenState, restEntry, restBody,
        groundedFires, isGroundedStable, offscreenFires, comFires, stackHeight, computeCOM,
        massOr1, wakeCountOf, isWakeful, wakeStep, wakeExcess, mathMax, mathMin,
        GROUND_COLLAPSE_COUNT, FLOOR_THICKNESS, GROUND_Y_MARGIN, GROUND_STABLE_LIN_VEL,
        GROUND_STABLE_ANG_VEL, VELOCITY_WAKE_THRESHOLD, ANGULAR_WAKE_THRESHOLD,
        WAKE_FRAMES_THRESHOLD, MAX_WORDS, MIN_HEIGHT_FOR_OFFSET_CHECK, COLLAPSE_OFFSET_FRAC,
        List.filter, List.foldl]
    have hm := markCollapsedNoShatter_of_collapsed { fallenState with collapsed := true } rfl
    have hcol : fallenState.collapsed = false := rfl
    have hphase : sketchCollapsePhase fallenState false
        = ({ fallenState with collapsed := true }, true) := by
      simp [sketchCollapsePhase, hcol, hcheck, hm]
    rw [hphase]
    exact ⟨rfl, rfl, by norm_num [GRAVITY_Y, COLLAPSE_GRAVITY_SCALE]⟩

/-! ### C9 -/

/-- C9: while the collapse flag is false, stepPhysics damps the
linear and angular velocity of exactly the entries whose vertical
position lies below canvasHeight − POOL_REGION (each multiplied by a
fixed factor strictly between 0 and 1, so speeds never grow), leaving
all other entries untouched; once the flag is true, stepPhysics
applies no pool damping at all. -/
theorem c9_pool_damping :
    (∀ (h : ℚ) (e : Entry), e.body.y > h - POOL_REGION →
        (dampOne h e).body.vx = e.body.vx * (1 - POOL_DAMP_Y * (1/10))
        ∧ (dampOne h e).body.vy = e.body.vy * (1 - POOL_DAMP_Y)
        ∧ (dampOne h e).body.av = e.body.av * (1 - POOL_DAMP_Y)
        ∧ (dampOne h e).body.x = e.body.x
        ∧ (dampOne h e).body.y = e.body.y
        ∧ |(dampOne h e).body.vx| ≤ |e.body.vx|
        ∧ |(dampOne h e).body.vy| ≤ |e.body.vy|
        ∧ |(dampOne h e).body.av| ≤ |e.body.av|)
    ∧ (∀ (h : ℚ) (e : Entry), ¬(e.body.y > h - POOL_REGION) → dampOne h e = e)
    ∧ (∀ (dt : ℚ) (f : ℚ → ℕ → BodyState → BodyState) (s : PhysState),
        stepPhysics dt f { s with collapsed := false }
          = { s with
              collapsed := false,
              wordEntries := (integrateBodies (f (mathMin dt 50)) s.wordEntries).map (dampOne s.canvasHeight) })
    ∧ (∀ (dt : ℚ) (f : ℚ → ℕ → BodyState → BodyState) (s : PhysState),
        stepPhysics dt f { s with collapsed := true }
          = { s with
              collapsed := true,
              wordEntries := integrateBodies (f (mathMin dt 50)) s.wordEntries }) := by
  have habs : ∀ (v c : ℚ), |c| ≤ 1 → |v * c| ≤ |v| := by
    intro v c hcle
    calc |v * c| = |v| * |c| := abs_mul v c
      _ ≤ |v| * 1 := mul_le_mul_of_nonneg_left hcle (abs_nonneg v)
      _ = |v| := mul_one _
  refine ⟨?_, ?_, ?_, ?_⟩
  · intro h e hy
    refine ⟨by simp [dampOne, hy], by simp [dampOne, hy], by simp [dampOne, hy],
      by simp [dampOne, hy], by simp [dampOne, hy], ?_, ?_, ?_⟩
    · have h1 : (dampOne h e).body.vx = e.body.vx * (1 - POOL_DAMP_Y * (1/10)) := by
        simp [dampOne, hy]
      rw [h1]
      exact habs _ _ (by rw [abs_le]; constructor <;> norm_num [POOL_DAMP_Y])
    · have h1 : (dampOne h e).body.vy = e.body.vy * (1 - POOL_DAMP_Y) := by
        simp [dampOne, hy]
      rw [h1]
      exact habs _ _ (by rw [abs_le]; constructor <;> norm_num [POOL_DAMP_Y])
    · have h1 : (dampOne h e).body.av = e.body.av * (1 - POOL_DAMP_Y) := by
        simp [dampOne, hy]
      rw [h1]
      exact habs _ _ (by rw [abs_le]; constructor <;> norm_num [POOL_DAMP_Y])
  · intro h e hy
    simp [dampOne, hy]
  · intro dt f s
    simp [stepPhysics, applyPoolDamping]
  · intro dt f s
    simp [stepPhysics]

/-- A pooled entry (y = 550 on a 600-high canvas) with nonzero
velocities. -/
def c9Entry : Entry :=
  let b : BodyState := { x := 400, y := 550, angle := 0, vx := 2, vy := -3, av := 1, mass := 1 }
  { restEntry 0 with body := b }

/-- C9 witness: a concrete entry inside the pool region is damped
exactly as the theorem states. -/
theorem c9_witness :
    (dampOne 600 c9Entry).body.vx = c9Entry.body.vx * (1 - POOL_DAMP_Y * (1/10))
    ∧ (dampOne 600 c9Entry).body.vy = c9Entry.body.vy * (1 - POOL_DAMP_Y)
    ∧ (dampOne 600 c9Entry).body.av = c9Entry.body.av * (1 - POOL_DAMP_Y)
    ∧ (dampOne 600 c9Entry).body.x = c9Entry.body.x
    ∧ (dampOne 600 c9Entry).body.y = c9Entry.body.y
    ∧ |(dampOne 600 c9Entry).body.vx| ≤ |c9Entry.body.vx|
    ∧ |(dampOne 600 c9Entry).body.vy| ≤ |c9Entry.body.vy|
    ∧ |(dampOne 600 c9Entry).body.av| ≤ |c9Entry.body.av| :=
  c9_pool_damping.1 600 c9Entry (by norm_num [c9Entry, restEntry, POOL_REGION])

/-! ### Registry lookup / update lemmas -/

lemma lookupEntry_updateById (l : List Entry) (i : ℕ) (f : Entry → Entry)
    (hf : ∀ e0, (f e0).id = e0.id) :
    lookupEntry (updateById l i f) i = (lookupEntry l i).map f := by
  induction l with
  | nil => rfl
  | cons e rest ih =>
    by_cases hei : e.id = i
    · simp [updateById, lookupEntry, hei, hf e]
    · simp [updateById, lookupEntry, hei, ih]

lemma lookupEntry_updateById_ne (l : List Entry) (i j : ℕ) (f : Entry → Entry)
    (hf : ∀ e0, (f e0).id = e0.id) (hne : j ≠ i) :
    lookupEntry (updateById l i f) j = lookupEntry l j := by
  induction l with
  | nil => rfl
  | cons e rest ih =>
    by_cases hei : e.id = i
    · have h1 : ¬(f e).id = j := by
        rw [hf e, hei]
        exact fun h => hne h.symm
      have h2 : ¬e.id = j := by
        rw [hei]
        exact fun h => hne h.symm
      have h3 : ¬i = j := fun h => hne h.symm
      simp [updateById, lookupEntry, hei, h1, h2, h3, ih]
    · simp [updateById, lookupEntry, hei, ih]

lemma schedUpdate_id (cap : Captured) (e0 : Entry) : (schedUpdate cap e0).id = e0.id := rfl

lemma markMidDone_id (e0 : Entry) : (markMidDone e0).id = e0.id := rfl

lemma decDelay_id (e0 : Entry) : (decDelay e0).id = e0.id := rfl

/-! ### scheduleSentenceSplit lemmas -/

lemma scheduleSentenceSplit_effect (st : AppState) (i : ℕ) (e : Entry)
    (hl : lookupEntry st.phys.wordEntries i = some e)
    (hm : e.midSplitDone = false) (hs : e.splitScheduled = false) :
    lookupEntry (scheduleSentenceSplit st i).phys.wordEntries i
      = some (schedUpdate (capOf e.body) e)
    ∧ (scheduleSentenceSplit st i).pendingSplits = st.pendingSplits ++ [i]
    ∧ (scheduleSentenceSplit st i).phys.collapsed = st.phys.collapsed := by
  refine ⟨?_, ?_, ?_⟩ <;>
    simp [scheduleSentenceSplit, hl, hm, hs,
      lookupEntry_updateById _ _ _ (schedUpdate_id (capOf e.body))]

lemma scheduleSentenceSplit_lookup_ne (st : AppState) (i j : ℕ) (hne : j ≠ i) :
    lookupEntry (scheduleSentenceSplit st i).phys.wordEntries j
      = lookupEntry st.phys.wordEntries j := by
  unfold scheduleSentenceSplit
  cases hl : lookupEntry st.phys.wordEntries i with
  | none => rfl
  | some e =>
    by_cases hg : (e.midSplitDone || e.splitScheduled) = true
    · simp [hg]
    · have hg2 : (e.midSplitDone || e.splitScheduled) = false := by simpa using hg
      simp [hg2, lookupEntry_updateById_ne _ _ _ _ (schedUpdate_id _) hne]

lemma scheduleSentenceSplit_lookup_self (st : AppState) (j : ℕ) (e2 : Entry)
    (hl : lookupEntry st.phys.wordEntries j = some e2) :
    ∃ e3, lookupEntry (scheduleSentenceSplit st j).phys.wordEntries j = some e3 := by
  unfold scheduleSentenceSplit
  rw [hl]
  by_cases hg : (e2.midSplitDone || e2.splitScheduled) = true
  · exact ⟨e2, by simp [hg, hl]⟩
  · have hg2 : (e2.midSplitDone || e2.splitScheduled) = false := by simpa using hg
    refine ⟨schedUpdate (capOf e2.body) e2, ?_⟩
    simp [hg2, lookupEntry_updateById _ _ _ (schedUpdate_id _), hl]

lemma scheduleSentenceSplit_pending_mono (st : AppState) (i x : ℕ)
    (hx : x ∈ st.pendingSplits) : x ∈ (scheduleSentenceSplit st i).pendingSplits := by
  unfold scheduleSentenceSplit
  cases hl : lookupEntry st.phys.wordEntries i with
  | none => exact hx
  | some e =>
    by_cases hg : (e.midSplitDone || e.splitScheduled) = true
    · simpa [hg] using hx
    · have hg2 : (e.midSplitDone || e.splitScheduled) = false := by simpa using hg
      simp [hg2]
      exact Or.inl hx

lemma scheduleSentenceSplit_collapsed (st : AppState) (i : ℕ) :
    (scheduleSentenceSplit st i).phys.collapsed = st.phys.collapsed := by
  unfold scheduleSentenceSplit
  cases hl : lookupEntry st.phys.wordEntries i with
  | none => rfl
  | some e =>
    by_cases hg : (e.midSplitDone || e.splitScheduled) = true
    · simp [hg]
    · have hg2 : (e.midSplitDone || e.splitScheduled) = false := by simpa using hg
      simp [hg2]

/-! ### Collision-listener lemmas -/

lemma resolveEntryId_floor (l : List Entry) : resolveEntryId l BodyRef.floorB = none := rfl

lemma resolveEntryId_wallLeft (l : List Entry) : resolveEntryId l BodyRef.wallLeft = none := rfl

lemma resolveEntryId_wallRight (l : List Entry) : resolveEntryId l BodyRef.wallRight = none := rfl

lemma resolveEntryId_some (l : List Entry) (i : ℕ) (e : Entry)
    (hl : lookupEntry l i = some e) : resolveEntryId l (BodyRef.entryBody i) = some i := by
  simp [resolveEntryId, hl]

lemma resolveEntryId_entry_eq (l : List Entry) (j j2 : ℕ)
    (h : resolveEntryId l (BodyRef.entryBody j) = some j2) : j2 = j := by
  simp only [resolveEntryId] at h
  cases hl : lookupEntry l j with
  | none => rw [hl] at h; exact absurd h (by simp)
  | some e => rw [hl] at h; simpa using h.symm

lemma collisionDir_no_resolve (st : AppState) (a b : BodyRef)
    (ha : resolveEntryId st.phys.wordEntries a = none) : collisionDir st a b = st := by
  simp [collisionDir, ha]

lemma collisionDir_schedules (st : AppState) (i : ℕ) (e : Entry) (b : BodyRef)
    (hl : lookupEntry st.phys.wordEntries i = some e)
    (hp : e.isSentenceParent = true) (hm : e.midSplitDone = false)
    (hq : b = BodyRef.floorB
      ∨ ∃ j e2, j ≠ i ∧ lookupEntry st.phys.wordEntries j = some e2 ∧ b = BodyRef.entryBody j) :
    collisionDir st (BodyRef.entryBody i) b = scheduleSentenceSplit st i := by
  rcases hq with hq | ⟨j, e2, hji, hl2, hq⟩
  · subst hq
    simp [collisionDir, resolveEntryId_some st.phys.wordEntries i e hl, hl, hp, hm]
  · subst hq
    simp [collisionDir, resolveEntryId_some st.phys.wordEntries i e hl, hl, hp, hm,
      resolveEntryId_some st.phys.wordEntries j e2 hl2, hji]

lemma collisionDir_wall (st : AppState) (i : ℕ) (b : BodyRef)
    (hb : b = BodyRef.wallLeft ∨ b = BodyRef.wallRight) :
    collisionDir st (BodyRef.entryBody i) b = st := by
  unfold collisionDir
  split
  · rfl
  · rename_i idA hr
    split
    · rfl
    · rename_i eA hl2
      split
      · dsimp only
        split
        · rename_i hcond
          rcases hb with hb | hb <;> subst hb <;> simp [resolveEntryId] at hcond
        · rfl
      · rfl

lemma collisionDir_cases (st : AppState) (a b : BodyRef) :
    collisionDir st a b = st
    ∨ ∃ j, resolveEntryId st.phys.wordEntries a = some j
        ∧ collisionDir st a b = scheduleSentenceSplit st j := by
  unfold collisionDir
  split
  · exact Or.inl rfl
  · rename_i idA hr
    split
    · exact Or.inl rfl
    · rename_i eA hl2
      split
      · dsimp only
        split
        · exact Or.inr ⟨idA, hr, rfl⟩
        · exact Or.inl rfl
      · exact Or.inl rfl

/-- Common conclusion shape: after scheduleSentenceSplit on a
schedulable entry, the entry is marked splitScheduled and enqueued. -/
lemma sched_scheduled_concl (st : AppState) (i : ℕ) (e : Entry)
    (hl : lookupEntry st.phys.wordEntries i = some e)
    (hm : e.midSplitDone = false) (hs : e.splitScheduled = false) :
    (lookupEntry (scheduleSentenceSplit st i).phys.wordEntries i).map
        (fun e0 => e0.splitScheduled) = some true
    ∧ i ∈ (scheduleSentenceSplit st i).pendingSplits := by
  obtain ⟨h1, h2, _⟩ := scheduleSentenceSplit_effect st i e hl hm hs
  exact ⟨by rw [h1]; rfl, by rw [h2]; simp⟩

/-- Both orientations of a parent-floor pair reduce to one
scheduleSentenceSplit call on the parent. -/
lemma collisionPair_floor_schedules (st : AppState) (i : ℕ) (e : Entry)
    (hl : lookupEntry st.phys.wordEntries i = some e)
    (hp : e.isSentenceParent = true) (hm : e.midSplitDone = false) :
    collisionPair st (BodyRef.entryBody i) BodyRef.floorB = scheduleSentenceSplit st i
    ∧ collisionPair st BodyRef.floorB (BodyRef.entryBody i) = scheduleSentenceSplit st i := by
  have hd1 : collisionDir st (BodyRef.entryBody i) BodyRef.floorB = scheduleSentenceSplit st i :=
    collisionDir_schedules st i e BodyRef.floorB hl hp hm (Or.inl rfl)
  have hd0 : collisionDir st BodyRef.floorB (BodyRef.entryBody i) = st :=
    collisionDir_no_resolve st _ _ (resolveEntryId_floor _)
  constructor
  · unfold collisionPair
    rw [hd1]
    exact collisionDir_no_resolve _ _ _ (resolveEntryId_floor _)
  · unfold collisionPair
    rw [hd0, hd1]

/-- Parent-other pair, parent side first: the parent ends up
scheduled whatever the second direction does to the other entry. -/
lemma collisionPair_other_fwd (st : AppState) (i j : ℕ) (e e2 : Entry)
    (hl : lookupEntry st.phys.wordEntries i = some e)
    (hp : e.isSentenceParent = true) (hm : e.midSplitDone = false)
    (hs : e.splitScheduled = false) (hji : j ≠ i)
    (hl2 : lookupEntry st.phys.wordEntries j = some e2) :
    (lookupEntry (collisionPair st (BodyRef.entryBody i) (BodyRef.entryBody j)).phys.wordEntries i).map
        (fun e0 => e0.splitScheduled) = some true
    ∧ i ∈ (collisionPair st (BodyRef.entryBody i) (BodyRef.entryBody j)).pendingSplits := by
  unfold collisionPair
  have hd1 : collisionDir st (BodyRef.entryBody i) (BodyRef.entryBody j)
      = scheduleSentenceSplit st i :=
    collisionDir_schedules st i e _ hl hp hm (Or.inr ⟨j, e2, hji, hl2, rfl⟩)
  rw [hd1]
  obtain ⟨h1, h2, _⟩ := scheduleSentenceSplit_effect st i e hl hm hs
  rcases collisionDir_cases (scheduleSentenceSplit st i) (BodyRef.entryBody j)
      (BodyRef.entryBody i) with hcd | ⟨j2, hj2, hcd⟩
  · rw [hcd]
    exact ⟨by rw [h1]; rfl, by rw [h2]; simp⟩
  · have hj2e : j2 = j := resolveEntryId_entry_eq _ _ _ hj2
    rw [hj2e] at hcd
    rw [hcd]
    constructor
    · rw [scheduleSentenceSplit_lookup_ne _ j i (fun h => hji h.symm), h1]
      rfl
    · exact scheduleSentenceSplit_pending_mono _ _ _ (by rw [h2]; simp)

/-- Parent-other pair, other side first: the parent still ends up
scheduled. -/
lemma collisionPair_other_rev (st : AppState) (i j : ℕ) (e e2 : Entry)
    (hl : lookupEntry st.phys.wordEntries i = some e)
    (hp : e.isSentenceParent = true) (hm : e.midSplitDone = false)
    (hs : e.splitScheduled = false) (hji : j ≠ i)
    (hl2 : lookupEntry st.phys.wordEntries j = some e2) :
    (lookupEntry (collisionPair st (BodyRef.entryBody j) (BodyRef.entryBody i)).phys.wordEntries i).map
        (fun e0 => e0.splitScheduled) = some true
    ∧ i ∈ (collisionPair st (BodyRef.entryBody j) (BodyRef.entryBody i)).pendingSplits := by
  unfold collisionPair
  rcases collisionDir_cases st (BodyRef.entryBody j) (BodyRef.entryBody i)
      with hcd | ⟨j2, hj2, hcd⟩
  · rw [hcd]
    have hd2 : collisionDir st (BodyRef.entryBody i) (BodyRef.entryBody j)
        = scheduleSentenceSplit st i :=
      collisionDir_schedules st i e _ hl hp hm (Or.inr ⟨j, e2, hji, hl2, rfl⟩)
    rw [hd2]
    exact sched_scheduled_concl st i e hl hm hs
  · have hj2e : j2 = j := resolveEntryId_entry_eq _ _ _ hj2
    rw [hj2e] at hcd
    rw [hcd]
    have hl3 : lookupEntry (scheduleSentenceSplit st j).phys.wordEntries i = some e :=
      (scheduleSentenceSplit_lookup_ne st j i (fun h => hji h.symm)).trans hl
    obtain ⟨e3, hl4⟩ := scheduleSentenceSplit_lookup_self st j e2 hl2
    have hd2 : collisionDir (scheduleSentenceSplit st j) (BodyRef.entryBody i)
        (BodyRef.entryBody j) = scheduleSentenceSplit (scheduleSentenceSplit st j) i :=
      collisionDir_schedules _ i e _ hl3 hp hm (Or.inr ⟨j, e3, hji, hl4, rfl⟩)
    rw [hd2]
    exact sched_scheduled_concl _ i e hl3 hm hs

/-! ### C4 -/

/-- C4: for an unscheduled, unsplit sentence parent, a collision pair
with a side wall (either orientation) leaves the state entirely
unchanged, while a collision pair with the floor or with the body of
another tracked entry (either orientation) marks the parent
splitScheduled and enqueues it. -/
theorem c4_wall_exclusion (st : AppState) (i : ℕ) (e : Entry)
    (hl : lookupEntry st.phys.wordEntries i = some e)
    (hp : e.isSentenceParent = true) (hm : e.midSplitDone = false)
    (hs : e.splitScheduled = false) :
    collisionPair st (BodyRef.entryBody i) BodyRef.wallLeft = st
    ∧ collisionPair st (BodyRef.entryBody i) BodyRef.wallRight = st
    ∧ collisionPair st BodyRef.wallLeft (BodyRef.entryBody i) = st
    ∧ collisionPair st BodyRef.wallRight (BodyRef.entryBody i) = st
    ∧ ((lookupEntry (collisionPair st (BodyRef.entryBody i) BodyRef.floorB).phys.wordEntries i).map
          (fun e0 => e0.splitScheduled) = some true
      ∧ i ∈ (collisionPair st (BodyRef.entryBody i) BodyRef.floorB).pendingSplits)
    ∧ ((lookupEntry (collisionPair st BodyRef.floorB (BodyRef.entryBody i)).phys.wordEntries i).map
          (fun e0 => e0.splitScheduled) = some true
      ∧ i ∈ (collisionPair st BodyRef.floorB (BodyRef.entryBody i)).pendingSplits)
    ∧ (∀ (j : ℕ) (e2 : Entry), j ≠ i → lookupEntry st.phys.wordEntries j = some e2 →
        ((lookupEntry (collisionPair st (BodyRef.entryBody i) (BodyRef.entryBody j)).phys.wordEntries i).map
            (fun e0 => e0.splitScheduled) = some true
          ∧ i ∈ (collisionPair st (BodyRef.entryBody i) (BodyRef.entryBody j)).pendingSplits
          ∧ (lookupEntry (collisionPair st (BodyRef.entryBody j) (BodyRef.entryBody i)).phys.wordEntries i).map
              (fun e0 => e0.splitScheduled) = some true
          ∧ i ∈ (collisionPair st (BodyRef.entryBody j) (BodyRef.entryBody i)).pendingSplits)) := by
  obtain ⟨hf1, hf2⟩ := collisionPair_floor_schedules st i e hl hp hm
  refine ⟨?_, ?_, ?_, ?_, ?_, ?_, ?_⟩
  · unfold collisionPair
    rw [collisionDir_wall st i _ (Or.inl rfl)]
    exact collisionDir_no_resolve _ _ _ (resolveEntryId_wallLeft _)
  · unfold collisionPair
    rw [collisionDir_wall st i _ (Or.inr rfl)]
    exact collisionDir_no_resolve _ _ _ (resolveEntryId_wallRight _)
  · unfold collisionPair
    rw [collisionDir_no_resolve st _ _ (resolveEntryId_wallLeft _)]
    exact collisionDir_wall st i _ (Or.inl rfl)
  · unfold collisionPair
    rw [collisionDir_no_resolve st _ _ (resolveEntryId_wallRight _)]
    exact collisionDir_wall st i _ (Or.inr rfl)
  · rw [hf1]
    exact sched_scheduled_concl st i e hl hm hs
  · rw [hf2]
    exact sched_scheduled_concl st i e hl hm hs
  · intro j e2 hji hl2
    obtain ⟨ha, hb⟩ := collisionPair_other_fwd st i j e e2 hl hp hm hs hji hl2
    obtain ⟨hc, hd⟩ := collisionPair_other_rev st i j e e2 hl hp hm hs hji hl2
    exact ⟨ha, hb, hc, hd⟩

/-! ### C1 -/

/-- C1 (amended): the collapse flag plays no role in split
scheduling — even while the flag is true, a qualifying floor collision
of an unscheduled, unsplit sentence parent still marks it
splitScheduled and enqueues it on the deferred split queue (and the
flag itself stays true). -/
theorem c1_collapse_still_schedules (st : AppState) (i : ℕ) (e : Entry)
    (hl : lookupEntry st.phys.wordEntries i = some e)
    (hp : e.isSentenceParent = true) (hm : e.midSplitDone = false)
    (hs : e.splitScheduled = false) (hc : st.phys.collapsed = true) :
    (lookupEntry (collisionPair st (BodyRef.entryBody i) BodyRef.floorB).phys.wordEntries i).map
        (fun e0 => e0.splitScheduled) = some true
    ∧ i ∈ (collisionPair st (BodyRef.entryBody i) BodyRef.floorB).pendingSplits
    ∧ (collisionPair st (BodyRef.entryBody i) BodyRef.floorB).phys.collapsed = true := by
  obtain ⟨hf1, _⟩ := collisionPair_floor_schedules st i e hl hp hm
  rw [hf1]
  obtain ⟨h1, h2, h3⟩ := scheduleSentenceSplit_effect st i e hl hm hs
  exact ⟨by rw [h1]; rfl, by rw [h2]; simp, by rw [h3]; exact hc⟩

/-- An unsplit, unscheduled sentence parent with id 1. -/
def parentEntry : Entry :=
  { restEntry 1 with
      isSentenceParent := true
      sentenceTokens := [['a']]
      parentLetterHeight := 34 }

/-- One sentence parent, collapse flag already true. -/
def c1State : AppState :=
  { phys :=
      { wordEntries := [parentEntry]
        collapsed := true
        wakeFrameCounter := 0
        canvasWidth := 800
        canvasHeight := 600
        gravityY := GRAVITY_Y }
    pendingSplits := []
    nextId := 2
    rngIdx := 0 }

/-- C1 counterexample: with the collapse flag already true, a floor
collision of an unsplit, unscheduled sentence parent still marks it
splitScheduled and enqueues it, refuting the claim that no new split
is ever scheduled once the flag is true. -/
theorem c1_counterexample :
    c1State.phys.collapsed = true
    ∧ (lookupEntry c1State.phys.wordEntries 1).map (fun e0 => e0.splitScheduled) = some false
    ∧ (lookupEntry (collisionPair c1State (BodyRef.entryBody 1) BodyRef.floorB).phys.wordEntries 1).map
        (fun e0 => e0.splitScheduled) = some true
    ∧ (collisionPair c1State (BodyRef.entryBody 1) BodyRef.floorB).pendingSplits = [1] :=
  ⟨rfl, rfl, rfl, rfl⟩

/-- C1 witness for the amended claim, at the same concrete state. -/
theorem c1_witness :
    (lookupEntry (collisionPair c1State (BodyRef.entryBody 1) BodyRef.floorB).phys.wordEntries 1).map
        (fun e0 => e0.splitScheduled) = some true
    ∧ 1 ∈ (collisionPair c1State (BodyRef.entryBody 1) BodyRef.floorB).pendingSplits
    ∧ (collisionPair c1State (BodyRef.entryBody 1) BodyRef.floorB).phys.collapsed = true :=
  c1_collapse_still_schedules c1State 1 parentEntry rfl rfl rfl rfl rfl

/-- A second, plain tracked entry with id 2. -/
def otherEntry : Entry := restEntry 2

/-- A sentence parent and another tracked entry, flag false. -/
def c4State : AppState :=
  { phys :=
      { wordEntries := [parentEntry, otherEntry]
        collapsed := false
        wakeFrameCounter := 0
        canvasWidth := 800
        canvasHeight := 600
        gravityY := GRAVITY_Y }
    pendingSplits := []
    nextId := 3
    rngIdx := 0 }

/-- C4 witness: on the concrete two-entry state, a wall pair is a
no-op while floor and other-entry pairs schedule the parent. -/
theorem c4_witness :
    collisionPair c4State (BodyRef.entryBody 1) BodyRef.wallLeft = c4State
    ∧ (lookupEntry (collisionPair c4State (BodyRef.entryBody 1) BodyRef.floorB).phys.wordEntries 1).map
        (fun e0 => e0.splitScheduled) = some true
    ∧ (lookupEntry (collisionPair c4State (BodyRef.entryBody 1) (BodyRef.entryBody 2)).phys.wordEntries 1).map
        (fun e0 => e0.splitScheduled) = some true :=
  ⟨(c4_wall_exclusion c4State 1 parentEntry rfl rfl rfl rfl).1,
    (c4_wall_exclusion c4State 1 parentEntry rfl rfl rfl rfl).2.2.2.2.1.1,
    ((c4_wall_exclusion c4State 1 parentEntry rfl rfl rfl rfl).2.2.2.2.2.2 2 otherEntry
      (by decide) rfl).1⟩

/-! ### Split-layout analysis: the children as a pure list, and the
centre positions the claim describes -/

/-- The claim's layout: child centres starting with the first left
edge at the cursor, advancing left-to-right by width + gap. -/
def specCenters (capX : ℚ) : ℚ → List ℚ → List ℚ
  | _, [] => []
  | cursor, w :: ws => (capX + (cursor + w / 2)) :: specCenters capX (cursor + w + tokenGap) ws

section SplitLemmas

variable (tw : ℚ → Char → ℚ) (bmass : List Char → ℚ → ℚ) (rng : ℕ → ℚ)

/-- The children pushed by the second pass, as a pure list. -/
def placedList (ps : Captured) : List Entry → ℚ → ℕ → List Entry
  | [], _, _ => []
  | te :: rest, cursor, ri =>
      placeOne rng ps te cursor ri :: placedList ps rest (cursor + te.width + tokenGap) (ri + 1)

lemma placeTokens_eq (ps : Captured) :
    ∀ (tes : List Entry) (c : ℚ) (ph : PhysState) (ri : ℕ),
      placeTokens rng ps tes c ph ri
        = ({ ph with wordEntries := ph.wordEntries ++ placedList rng ps tes c ri },
            ri + tes.length) := by
  intro tes
  induction tes with
  | nil =>
    intro c ph ri
    simp [placeTokens, placedList]
  | cons te rest ih =>
    intro c ph ri
    rw [placeTokens, placedList, ih]
    simp only [addWordEntryP, Prod.mk.injEq]
    constructor
    · simp [List.append_assoc]
    · simp only [List.length_cons]
      omega

lemma placedList_length (ps : Captured) :
    ∀ (tes : List Entry) (c : ℚ) (ri : ℕ),
      (placedList rng ps tes c ri).length = tes.length := by
  intro tes
  induction tes with
  | nil => intro c ri; rfl
  | cons te rest ih => intro c ri; simp [placedList, ih]

lemma placedList_map_width (ps : Captured) :
    ∀ (tes : List Entry) (c : ℚ) (ri : ℕ),
      (placedList rng ps tes c ri).map (fun t => t.width) = tes.map (fun t => t.width) := by
  intro tes
  induction tes with
  | nil => intro c ri; rfl
  | cons te rest ih =>
    intro c ri
    simp [placedList, ih, placeOne]

lemma placedList_isToken (ps : Captured) :
    ∀ (tes : List Entry) (c : ℚ) (ri : ℕ), (∀ t ∈ tes, t.isToken = true) →
      ∀ t ∈ placedList rng ps tes c ri, t.isToken = true := by
  intro tes
  induction tes with
  | nil => intro c ri _ t ht; simp [placedList] at ht
  | cons te rest ih =>
    intro c ri hall t ht
    rcases (by simpa [placedList] using ht : t = placeOne rng ps te c ri ∨ t ∈ placedList rng ps rest (c + te.width + tokenGap) (ri + 1)) with h | h
    · subst h
      have : te.isToken = true := hall te (by simp)
      simpa [placeOne] using this
    · exact ih _ _ (fun t2 ht2 => hall t2 (by simp [ht2])) t h

lemma placedList_map_x (ps : Captured) :
    ∀ (tes : List Entry) (c : ℚ) (ri : ℕ),
      (placedList rng ps tes c ri).map (fun t => t.body.x)
        = specCenters ps.x c (tes.map (fun t => t.width)) := by
  intro tes
  induction tes with
  | nil => intro c ri; rfl
  | cons te rest ih =>
    intro c ri
    simp [placedList, specCenters, ih, placeOne]

end SplitLemmas

/-! ### Geometry of specCenters -/

lemma specCenters_first (capX c : ℚ) (ws : List ℚ) (h : ws ≠ []) :
    (specCenters capX c ws).headD 0 - (ws.headD 0) / 2 = capX + c := by
  cases ws with
  | nil => exact absurd rfl h
  | cons w ws2 =>
    simp [specCenters]
    ring

lemma specCenters_adjacent (capX : ℚ) :
    ∀ (ws : List ℚ) (c : ℚ) (k : ℕ), k + 1 < ws.length →
      (specCenters capX c ws).getD (k+1) 0 - (ws.getD (k+1) 0) / 2
        = ((specCenters capX c ws).getD k 0 + (ws.getD k 0) / 2) + tokenGap := by
  intro ws
  induction ws with
  | nil =>
    intro c k h
    simp at h
  | cons w ws2 ih =>
    intro c k h
    cases k with
    | zero =>
      cases ws2 with
      | nil => simp at h
      | cons w2 ws3 =>
        simp [specCenters]
        ring
    | succ k2 =>
      have h2 : k2 + 1 < ws2.length := by simpa using h
      simpa [specCenters] using ih (c + w + tokenGap) k2 h2

lemma specCenters_last (capX : ℚ) :
    ∀ (ws : List ℚ) (c : ℚ), ws ≠ [] →
      (specCenters capX c ws).getD (ws.length - 1) 0 + (ws.getD (ws.length - 1) 0) / 2
        = capX + c + ws.sum + ((ws.length - 1 : ℕ) : ℚ) * tokenGap := by
  intro ws
  induction ws with
  | nil => intro c h; exact absurd rfl h
  | cons w ws2 ih =>
    intro c _
    cases ws2 with
    | nil =>
      simp [specCenters]
      ring
    | cons w2 ws3 =>
      have hlen : (w :: w2 :: ws3).length - 1 = ws3.length + 1 := by simp
      have hlen2 : (w2 :: ws3).length - 1 = ws3.length := by simp
      have hx := ih (c + w + tokenGap) (by simp)
      rw [hlen2] at hx
      rw [hlen]
      rw [show specCenters capX c (w :: w2 :: ws3)
          = (capX + (c + w / 2)) :: specCenters capX (c + w + tokenGap) (w2 :: ws3) from rfl]
      simp only [List.getD_cons_succ]
      rw [hx]
      simp only [List.sum_cons]
      push_cast
      ring

/-! ### measureTokens facts -/

section MeasureLemmas

variable (tw : ℚ → Char → ℚ) (bmass : List Char → ℚ → ℚ) (rng : ℕ → ℚ)

lemma measureTokens_spec (ps : Captured) (lh : ℚ) :
    ∀ (toks : List (List Char)) (nid ri : ℕ), toks ≠ [] →
      (measureTokens tw bmass rng ps lh toks nid ri).1.map (fun t => t.width)
          = toks.map (layoutWidth (tw (lh * (78/100))))
      ∧ (measureTokens tw bmass rng ps lh toks nid ri).2.1
          = (toks.map (layoutWidth (tw (lh * (78/100))))).sum
            + ((toks.length - 1 : ℕ) : ℚ) * tokenGap
      ∧ (∀ t ∈ (measureTokens tw bmass rng ps lh toks nid ri).1, t.isToken = true)
      ∧ (measureTokens tw bmass rng ps lh toks nid ri).1.length = toks.length
      ∧ (measureTokens tw bmass rng ps lh toks nid ri).2.2.1 = nid + toks.length
      ∧ (measureTokens tw bmass rng ps lh toks nid ri).2.2.2 = ri + toks.length := by
  intro toks
  induction toks with
  | nil => intro nid ri h; exact absurd rfl h
  | cons t rest ih =>
    intro nid ri _
    cases rest with
    | nil =>
      refine ⟨?_, ?_, ?_, ?_, ?_, ?_⟩ <;>
        simp [measureTokens, makeWordEntry]
    | cons t2 rest2 =>
      obtain ⟨ih1, ih2, ih3, ih4, ih5, ih6⟩ := ih (nid + 1) (ri + 1) (by simp)
      refine ⟨?_, ?_, ?_, ?_, ?_, ?_⟩
      · simp [measureTokens, makeWordEntry, ih1]
      · simp only [measureTokens, makeWordEntry]
        rw [ih2]
        simp only [List.map_cons, List.sum_cons, List.length_cons, Nat.succ_sub_one]
        push_cast
        ring
      · intro t3 ht3
        rcases (by simpa [measureTokens] using ht3 :
            t3 = { (makeWordEntry tw bmass rng nid t ps.x ps.y lh ri).1 with isToken := true }
            ∨ t3 ∈ (measureTokens tw bmass rng ps lh (t2 :: rest2) (nid + 1)
                (makeWordEntry tw bmass rng nid t ps.x ps.y lh ri).2).1) with h | h
        · subst h; rfl
        · exact ih3 t3 (by simpa [makeWordEntry] using h)
      · simp [measureTokens, makeWordEntry, ih4]
      · simp [measureTokens, makeWordEntry, ih5]
        omega
      · simp [measureTokens, makeWordEntry, ih6]
        omega

end MeasureLemmas

lemma updateById_length (l : List Entry) (i : ℕ) (f : Entry → Entry) :
    (updateById l i f).length = l.length := by
  induction l with
  | nil => rfl
  | cons e rest ih => simp [updateById, ih]

section ProcessLemmas

variable (tw : ℚ → Char → ℚ) (bmass : List Char → ℚ → ℚ) (rng : ℕ → ℚ)

/-- The first-pass measurement of a parent's recorded tokens, at the
captured pose and inherited letter height. -/
def splitMeasure (e : Entry) (nid ri : ℕ) : List Entry × ℚ × ℕ × ℕ :=
  measureTokens tw bmass rng e.capturedState (parentLH e) e.sentenceTokens nid ri

/-- The list of child entries a split of e appends to the registry. -/
def childList (e : Entry) (nid ri : ℕ) : List Entry :=
  placedList rng e.capturedState (splitMeasure tw bmass rng e nid ri).1
    (-((splitMeasure tw bmass rng e nid ri).2.1 / 2))
    (splitMeasure tw bmass rng e nid ri).2.2.2

/-- The claim's per-child widths: each recorded token measured by the
geometry factory at the inherited letter height. -/
def measuredWidths (e : Entry) : List ℚ :=
  e.sentenceTokens.map (layoutWidth (tw (parentLH e * (78/100))))

/-- The claim's total span: sum of child widths plus (N−1) gaps. -/
def fullSpan (e : Entry) : ℚ :=
  (measuredWidths tw e).sum + ((e.sentenceTokens.length - 1 : ℕ) : ℚ) * tokenGap

lemma processItem_execute (st : AppState) (i : ℕ) (e : Entry)
    (hl : lookupEntry st.phys.wordEntries i = some e)
    (hm : e.midSplitDone = false) (hd : e.delayFrames = 0)
    (hne : e.sentenceTokens ≠ []) :
    processItem tw bmass rng st i
      = (false, executeSplit tw bmass rng
          { st with phys := { st.phys with
              wordEntries := updateById st.phys.wordEntries i markMidDone } } i e) := by
  have hne2 : e.sentenceTokens.isEmpty = false := by
    cases h : e.sentenceTokens with
    | nil => exact absurd h hne
    | cons a l => rfl
  simp [processItem, hl, hm, hd, hne2, markMidDone]

lemma processItem_empty (st : AppState) (i : ℕ) (e : Entry)
    (hl : lookupEntry st.phys.wordEntries i = some e)
    (hm : e.midSplitDone = false) (hd : e.delayFrames = 0)
    (hemp : e.sentenceTokens = []) :
    processItem tw bmass rng st i
      = (false, { st with phys := { st.phys with
          wordEntries := updateById st.phys.wordEntries i markMidDone } }) := by
  have hemp2 : e.sentenceTokens.isEmpty = true := by rw [hemp]; rfl
  simp [processItem, hl, hm, hd, hemp2, markMidDone]

lemma executeSplit_spec (st : AppState) (i : ℕ) (e : Entry) :
    executeSplit tw bmass rng st i e
      = { st with
          phys :=
            { st.phys with
              wordEntries :=
                removeFirstById st.phys.wordEntries i
                  ++ childList tw bmass rng e st.nextId st.rngIdx }
          nextId := (splitMeasure tw bmass rng e st.nextId st.rngIdx).2.2.1
          rngIdx :=
            (splitMeasure tw bmass rng e st.nextId st.rngIdx).2.2.2
              + (splitMeasure tw bmass rng e st.nextId st.rngIdx).1.length } := by
  simp only [executeSplit, splitMeasure, childList, placeTokens_eq, removeWordEntryP]

lemma childList_spec (e : Entry) (nid ri : ℕ) (hne : e.sentenceTokens ≠ []) :
    (childList tw bmass rng e nid ri).map (fun t => t.width) = measuredWidths tw e
    ∧ (childList tw bmass rng e nid ri).length = e.sentenceTokens.length
    ∧ (∀ t ∈ childList tw bmass rng e nid ri, t.isToken = true)
    ∧ (childList tw bmass rng e nid ri).map (fun t => t.body.x)
        = specCenters e.capturedState.x (-(fullSpan tw e / 2)) (measuredWidths tw e) := by
  obtain ⟨m1, m2, m3, m4, _, _⟩ :=
    measureTokens_spec tw bmass rng e.capturedState (parentLH e) e.sentenceTokens nid ri hne
  refine ⟨?_, ?_, ?_, ?_⟩
  · unfold childList
    rw [placedList_map_width]
    exact m1
  · unfold childList
    rw [placedList_length]
    exact m4
  · unfold childList
    exact placedList_isToken rng _ _ _ _ (by exact m3)
  · unfold childList splitMeasure
    rw [placedList_map_x, m1, m2]
    rfl

end ProcessLemmas

/-! ### C2 -/

/-- C2: when a scheduled parent's deferred split executes
(delayFrames = 0, not yet split, tokens recorded), exactly N = number
of recorded tokens child Token entries are appended (and the parent is
removed): their widths are the measured token widths, the first
child's left edge sits at capturedX − span/2, consecutive children
follow left-to-right separated by the fixed gap, the laid-out span
(last right edge − first left edge) equals Σwidths + (N−1)·gap, and
the children do not depend on the parent's live body — only on the
captured state. -/
theorem c2_split_conservation (tw : ℚ → Char → ℚ) (bmass : List Char → ℚ → ℚ)
    (rng : ℕ → ℚ) (st : AppState) (i : ℕ) (e : Entry)
    (hl : lookupEntry st.phys.wordEntries i = some e)
    (hm : e.midSplitDone = false) (hd : e.delayFrames = 0)
    (hne : e.sentenceTokens ≠ []) :
    (processItem tw bmass rng st i).1 = false
    ∧ (processItem tw bmass rng st i).2.phys.wordEntries
        = removeFirstById (updateById st.phys.wordEntries i markMidDone) i
          ++ childList tw bmass rng e st.nextId st.rngIdx
    ∧ (childList tw bmass rng e st.nextId st.rngIdx).length = e.sentenceTokens.length
    ∧ (∀ t ∈ childList tw bmass rng e st.nextId st.rngIdx, t.isToken = true)
    ∧ (childList tw bmass rng e st.nextId st.rngIdx).map (fun t => t.width)
        = measuredWidths tw e
    ∧ ((childList tw bmass rng e st.nextId st.rngIdx).map (fun t => t.body.x)).headD 0
        - (measuredWidths tw e).headD 0 / 2
        = e.capturedState.x - fullSpan tw e / 2
    ∧ (∀ k : ℕ, k + 1 < e.sentenceTokens.length →
        ((childList tw bmass rng e st.nextId st.rngIdx).map (fun t => t.body.x)).getD (k+1) 0
            - (measuredWidths tw e).getD (k+1) 0 / 2
          = (((childList tw bmass rng e st.nextId st.rngIdx).map (fun t => t.body.x)).getD k 0
              + (measuredWidths tw e).getD k 0 / 2) + tokenGap)
    ∧ ((childList tw bmass rng e st.nextId st.rngIdx).map (fun t => t.body.x)).getD
          (e.sentenceTokens.length - 1) 0
        + (measuredWidths tw e).getD (e.sentenceTokens.length - 1) 0 / 2
        - (((childList tw bmass rng e st.nextId st.rngIdx).map (fun t => t.body.x)).headD 0
            - (measuredWidths tw e).headD 0 / 2)
        = fullSpan tw e
    ∧ (∀ b' : BodyState,
        (processItem tw bmass rng
            { st with phys := { st.phys with
                wordEntries := updateById st.phys.wordEntries i
                  (fun e0 => { e0 with body := b' }) } } i).2.phys.wordEntries
          = removeFirstById
              (updateById (updateById st.phys.wordEntries i (fun e0 => { e0 with body := b' }))
                i markMidDone) i
            ++ childList tw bmass rng e st.nextId st.rngIdx) := by
  obtain ⟨cw, cl, ct, cx⟩ := childList_spec tw bmass rng e st.nextId st.rngIdx hne
  have hWne : measuredWidths tw e ≠ [] := by
    unfold measuredWidths
    simpa using hne
  have hWlen : (measuredWidths tw e).length = e.sentenceTokens.length := by
    simp [measuredWidths]
  refine ⟨?_, ?_, cl, ct, cw, ?_, ?_, ?_, ?_⟩
  · rw [processItem_execute tw bmass rng st i e hl hm hd hne]
  · rw [processItem_execute tw bmass rng st i e hl hm hd hne, executeSplit_spec]
  · rw [cx, specCenters_first e.capturedState.x (-(fullSpan tw e / 2)) (measuredWidths tw e) hWne]
    ring
  · intro k hk
    rw [cx]
    exact specCenters_adjacent e.capturedState.x (measuredWidths tw e)
      (-(fullSpan tw e / 2)) k (by rw [hWlen]; exact hk)
  · rw [cx, ← hWlen,
      specCenters_last e.capturedState.x (measuredWidths tw e) (-(fullSpan tw e / 2)) hWne,
      specCenters_first e.capturedState.x (-(fullSpan tw e / 2)) (measuredWidths tw e) hWne]
    unfold fullSpan
    rw [hWlen]
    ring
  · intro b'
    have hf : ∀ e0 : Entry, ((fun (e1 : Entry) => { e1 with body := b' }) e0).id = e0.id :=
      fun e0 => rfl
    have hl2 : lookupEntry
        (updateById st.phys.wordEntries i (fun e0 => { e0 with body := b' })) i
        = some { e with body := b' } := by
      rw [lookupEntry_updateById _ _ _ hf, hl]
      rfl
    rw [processItem_execute tw bmass rng _ i { e with body := b' } hl2 hm hd hne,
      executeSplit_spec]
    rfl

/-! ### C3 -/

/-- C3 (amended): when a scheduled parent with an empty recorded
token list executes its deferred split, the entry is marked
midSplitDone and the queue item is consumed, no children are spawned —
but the parent is NOT removed from the Registry: it stays (the
removal sits after the empty-token early continue). -/
theorem c3_empty_token_split (tw : ℚ → Char → ℚ) (bmass : List Char → ℚ → ℚ)
    (rng : ℕ → ℚ) (st : AppState) (i : ℕ) (e : Entry)
    (hl : lookupEntry st.phys.wordEntries i = some e)
    (hm : e.midSplitDone = false) (hd : e.delayFrames = 0)
    (hemp : e.sentenceTokens = []) :
    processItem tw bmass rng st i
      = (false, { st with phys := { st.phys with
          wordEntries := updateById st.phys.wordEntries i markMidDone } })
    ∧ lookupEntry (processItem tw bmass rng st i).2.phys.wordEntries i = some (markMidDone e)
    ∧ (processItem tw bmass rng st i).2.phys.wordEntries.length = st.phys.wordEntries.length
    ∧ (processItem tw bmass rng st i).2.nextId = st.nextId := by
  have heq := processItem_empty tw bmass rng st i e hl hm hd hemp
  refine ⟨heq, ?_, ?_, ?_⟩
  · rw [heq]
    show lookupEntry (updateById st.phys.wordEntries i markMidDone) i = some (markMidDone e)
    rw [lookupEntry_updateById _ _ _ markMidDone_id, hl]
    rfl
  · rw [heq]
    show (updateById st.phys.wordEntries i markMidDone).length = st.phys.wordEntries.length
    exact updateById_length _ _ _
  · rw [heq]

/-! ### Concrete split states -/

/-- A concrete geometry-factory measurement: every glyph 10 px wide. -/
def tw0 : ℚ → Char → ℚ := fun _ _ => 10

/-- A concrete mass oracle. -/
def bmass0 : List Char → ℚ → ℚ := fun _ _ => 1

/-- A concrete random stream (constant 1/2: zero jitter, zero tilt). -/
def rng0 : ℕ → ℚ := fun _ => 1/2

/-- A scheduled sentence parent with an empty recorded token list. -/
def c3Parent : Entry :=
  { restEntry 1 with
      isSentenceParent := true
      splitScheduled := true
      sentenceTokens := []
      parentLetterHeight := 34
      delayFrames := 0 }

/-- The empty-token parent sitting in the registry and the queue,
with its delay already elapsed. -/
def c3State : AppState :=
  { phys :=
      { wordEntries := [c3Parent]
        collapsed := false
        wakeFrameCounter := 0
        canvasWidth := 800
        canvasHeight := 600
        gravityY := GRAVITY_Y }
    pendingSplits := [1]
    nextId := 2
    rngIdx := 0 }

/-- C3 counterexample: running processPendingSplits on the scheduled
empty-token parent consumes the queue item and marks midSplitDone, but
the parent entry is still in the Registry afterwards (length 1,
lookup succeeds) — refuting the claim that the parent is removed. -/
theorem c3_counterexample :
    (processPendingSplits tw0 bmass0 rng0 c3State).pendingSplits = []
    ∧ (lookupEntry (processPendingSplits tw0 bmass0 rng0 c3State).phys.wordEntries 1).map
        (fun e0 => e0.midSplitDone) = some true
    ∧ (lookupEntry (processPendingSplits tw0 bmass0 rng0 c3State).phys.wordEntries 1).isSome
        = true
    ∧ (processPendingSplits tw0 bmass0 rng0 c3State).phys.wordEntries.length = 1 :=
  ⟨rfl, rfl, rfl, rfl⟩

/-- C3 witness for the amended claim, at the same concrete parent. -/
theorem c3_witness :
    processItem tw0 bmass0 rng0 c3State 1
      = (false, { c3State with phys := { c3State.phys with
          wordEntries := updateById c3State.phys.wordEntries 1 markMidDone } })
    ∧ lookupEntry (processItem tw0 bmass0 rng0 c3State 1).2.phys.wordEntries 1
        = some (markMidDone c3Parent)
    ∧ (processItem tw0 bmass0 rng0 c3State 1).2.phys.wordEntries.length
        = c3State.phys.wordEntries.length
    ∧ (processItem tw0 bmass0 rng0 c3State 1).2.nextId = c3State.nextId :=
  c3_empty_token_split tw0 bmass0 rng0 c3State 1 c3Parent rfl rfl rfl rfl

/-- A scheduled sentence parent with two recorded tokens and a
captured pose. -/
def c2Parent : Entry :=
  { restEntry 1 with
      isSentenceParent := true
      splitScheduled := true
      sentenceTokens := [['a'], ['b', 'c']]
      parentLetterHeight := 34
      capturedState := { x := 100, y := 50, angle := 0, vx := 1, vy := 2, av := 3 }
      delayFrames := 0 }

/-- The two-token parent in the registry with its delay elapsed. -/
def c2State : AppState :=
  { phys :=
      { wordEntries := [c2Parent]
        collapsed := false
        wakeFrameCounter := 0
        canvasWidth := 800
        canvasHeight := 600
        gravityY := GRAVITY_Y }
    pendingSplits := [1]
    nextId := 2
    rngIdx := 0 }

/-- C2 witness: executing the deferred split of the concrete
two-token parent yields exactly the predicted child list with the
predicted symmetric layout. -/
theorem c2_witness :
    (processItem tw0 bmass0 rng0 c2State 1).1 = false
    ∧ (processItem tw0 bmass0 rng0 c2State 1).2.phys.wordEntries
        = removeFirstById (updateById c2State.phys.wordEntries 1 markMidDone) 1
          ++ childList tw0 bmass0 rng0 c2Parent c2State.nextId c2State.rngIdx
    ∧ (childList tw0 bmass0 rng0 c2Parent c2State.nextId c2State.rngIdx).length
        = c2Parent.sentenceTokens.length
    ∧ (∀ t ∈ childList tw0 bmass0 rng0 c2Parent c2State.nextId c2State.rngIdx,
        t.isToken = true)
    ∧ (childList tw0 bmass0 rng0 c2Parent c2State.nextId c2State.rngIdx).map
        (fun t => t.width) = measuredWidths tw0 c2Parent
    ∧ ((childList tw0 bmass0 rng0 c2Parent c2State.nextId c2State.rngIdx).map
          (fun t => t.body.x)).headD 0
        - (measuredWidths tw0 c2Parent).headD 0 / 2
        = c2Parent.capturedState.x - fullSpan tw0 c2Parent / 2 :=
  let h := c2_split_conservation tw0 bmass0 rng0 c2State 1 c2Parent rfl rfl rfl (by decide)
  ⟨h.1, h.2.1, h.2.2.1, h.2.2.2.1, h.2.2.2.2.1, h.2.2.2.2.2.1⟩

end FragileWords
